import Mathlib

/-!
Verification of the GMV Max report scripts (Google Apps Script / JavaScript).

Shallow embedding conventions:
* JavaScript values occurring in this code base are modelled by `JSVal`
  (finite numbers as rationals, strings, booleans, null).  A JS value that is
  `NaN`/non-finite is represented by parse failure (`Option.none`) at the
  points where the source guards with `isFinite`.
* JS objects are association lists `Obj := List (String × JSVal)` with
  first-key-wins lookup, in-place update and append-on-new-key, mirroring
  property access, `k in o` and `o[k] = v`.
* Dates that the scripts parse with a `T00:00:00` suffix are modelled as
  epoch-day integers, so millisecond arithmetic divided by a day is exact.
* Network fetches are modelled by response oracles; the `while (true)`
  pagination loops are modelled with explicit fuel, returning `none` when the
  fuel is exhausted (the JS loop would not have terminated within that many
  iterations).
-/

inductive JSVal where
  | num (q : ℚ)
  | str (s : String)
  | boolV (b : Bool)
  | nullV
deriving DecidableEq, Repr

/-- JS objects as insertion-ordered association lists. -/
abbrev Obj := List (String × JSVal)

/-- Property read `o[k]`: first entry with the key, if any (`undefined` is `none`). -/
def objGet (o : Obj) (k : String) : Option JSVal :=
  (o.find? (fun p => p.1 == k)).map (·.2)

/-- The JS `k in o` test. -/
def objHas (o : Obj) (k : String) : Bool :=
  o.any (fun p => p.1 == k)

/-- Property write `o[k] = v`: replace an existing entry, else append. -/
def objSet (o : Obj) (k : String) (v : JSVal) : Obj :=
  if objHas o k then o.map (fun p => if p.1 == k then (k, v) else p)
  else o ++ [(k, v)]

/-- Numeric value of a digit string (most significant first). -/
def digitsVal (cs : List Char) : Nat :=
  cs.foldl (fun a c => a * 10 + (c.toNat - 48)) 0

/-- Modelled from the JS builtin `parseFloat`: longest decimal prefix after
optional leading spaces and sign, integer and/or fractional digits; `none`
models a `NaN`/non-finite result.  (Exponent suffixes and the exotic
`"Infinity"` literal are out of scope of this code base's data.) -/
def parseFloatJs (s : String) : Option ℚ :=
  let cs := s.data.dropWhile (fun c => c == ' ')
  let sign : ℚ := match cs with
    | '-' :: _ => -1
    | _ => 1
  let cs' := match cs with
    | '-' :: rest => rest
    | '+' :: rest => rest
    | _ => cs
  let intDigits := cs'.takeWhile Char.isDigit
  let rest := cs'.dropWhile Char.isDigit
  let fracDigits := match rest with
    | '.' :: r => r.takeWhile Char.isDigit
    | _ => []
  if intDigits.isEmpty && fracDigits.isEmpty then none
  else some (sign * ((digitsVal intDigits : ℚ) +
    (digitsVal fracDigits : ℚ) / ((10 : ℚ) ^ fracDigits.length)))

/-- `num_` from the source: `parseFloat` on strings, `Number(...)` otherwise;
`none` models the `NaN`/non-finite outcomes that every use site screens out
with `isFinite`.  (`Number(true) = 1`, `Number(false) = 0`, `Number(null) = 0`.) -/
def num_ (x : JSVal) : Option ℚ :=
  match x with
  | .str s => parseFloatJs s
  | .num q => some q
  | .boolV b => some (if b then 1 else 0)
  | .nullV => some 0

/-- `num_` applied to a possibly-undefined value (`num_(o[k])`); an absent
property is `undefined`, whose `Number` is `NaN`. -/
def numOpt (x : Option JSVal) : Option ℚ :=
  match x with
  | some v => num_ v
  | none => none

/-- JS truthiness for the values in this code base. -/
def truthy : JSVal → Bool
  | .num q => q != 0
  | .str s => s != ""
  | .boolV b => b
  | .nullV => false

/-- The `x || ''` idiom used by the flatteners and the error logger:
a falsy or absent value becomes the empty string. -/
def orEmpty (x : Option JSVal) : JSVal :=
  match x with
  | some v => if truthy v then v else .str ""
  | none => .str ""

/-- The `r[h] ?? ''` idiom used by `writeRowsToSheet_`: only `undefined`
and `null` fall back to the empty string. -/
def nullish (x : Option JSVal) : JSVal :=
  match x with
  | some .nullV => .str ""
  | some v => v
  | none => .str ""

/-- `sumTotals_` (src/unnamed/part_001, lines 245-256): start from a copy of
the accumulator; for each key of the new object, if its value parses to a
finite number add it onto `num_(out[k]) || 0`, otherwise carry the raw value
through only when the key is not yet present. -/
def sumTotals_ (agg add : Obj) : Obj :=
  add.foldl (fun out kv =>
    match num_ kv.2 with
    | some v => objSet out kv.1 (.num ((numOpt (objGet out kv.1)).getD 0 + v))
    | none => if objHas out kv.1 then out else objSet out kv.1 kv.2) agg

/-- ROI recomputation after all totals merges (src/unnamed/part_001, lines
176-186): set `roi = gross_revenue / cost` when `cost` is finite and positive
(and `gross_revenue` finite); then, reading `net_cost` from the possibly
updated object, set `roi = gross_revenue / net_cost` when `cost` is zero or
non-finite and `net_cost` is finite and positive. -/
def recomputeRoi (totalsAgg : Obj) : Obj :=
  let cost := numOpt (objGet totalsAgg "cost")
  let gross := numOpt (objGet totalsAgg "gross_revenue")
  let a1 :=
    match cost, gross with
    | some c, some g => if 0 < c then objSet totalsAgg "roi" (.num (g / c)) else totalsAgg
    | _, _ => totalsAgg
  let netCost := numOpt (objGet a1 "net_cost")
  match netCost, gross with
  | some nc, some g =>
      if (cost = none ∨ cost = some 0) ∧ 0 < nc then objSet a1 "roi" (.num (g / nc)) else a1
  | _, _ => a1

/-- `buildDailyWindows_`'s loop (src/unnamed/part_001, lines 227-242), with
dates as epoch days: while `curStart ≤ end`, emit
`[curStart, min end (curStart + 29)]` and restart the day after. -/
def buildDailyWindowsAux (e cur : Int) : List (Int × Int) :=
  if cur ≤ e then
    (cur, min e (cur + 29)) :: buildDailyWindowsAux e (min e (cur + 29) + 1)
  else []
termination_by (e + 1 - cur).toNat
decreasing_by omega

/-- `buildDailyWindows_` (src/unnamed/part_001, lines 227-242). -/
def buildDailyWindows_ (s e : Int) : List (Int × Int) :=
  buildDailyWindowsAux e s

/-- One parsed API response page, as consumed by the pagination loops:
the `data.list` rows (already flattened by the caller's `forEach`), the raw
`page_info.total_page` field (`none` when absent), and the optional sibling
`total_metrics` object. -/
structure Page (α : Type) where
  rows : List α
  total_page : Option Nat
  totalMetrics : Option Obj
deriving DecidableEq

/-- `Number(pageInfo.total_page || 1)`: an absent or zero (falsy)
`total_page` counts as 1. -/
def effTotalPage {α : Type} (b : Page α) : Nat :=
  match b.total_page with
  | none => 1
  | some t => if t = 0 then 1 else t

/-- The single-query pagination loop shared by the non-batch variants
(src/runProductGmvMaxCampaignDaily.js, lines 60-130): each iteration fetches
page `page`, captures `total_metrics` only when none was captured yet (and
totals are enabled), appends the page's rows, and stops once
`page >= totalPage`.  `fuel` bounds the number of iterations; `none` means
the loop would still be running. -/
def fetchLoop {α : Type} (enableTotals : Bool) (resp : Nat → Page α) :
    Nat → Nat → Option Obj → List α → List Nat → Option (List Nat × List α × Option Obj)
  | 0, _, _, _, _ => none
  | fuel + 1, page, tm, acc, reqs =>
      let b := resp page
      let tm' := if enableTotals then tm <|> b.totalMetrics else tm
      let acc' := acc ++ b.rows
      let reqs' := reqs ++ [page]
      if effTotalPage b ≤ page then some (reqs', acc', tm')
      else fetchLoop enableTotals resp fuel (page + 1) tm' acc' reqs'

/-- `validateDailyRange_` (src/runProductGmvMaxCampaignDaily.js, lines
197-205): with both dates parsed at UTC midnight, the inclusive day count is
exactly `(end - start) + 1`; throw when it exceeds 30. -/
def validateDailyRange_ (s e : Int) : Except String Unit :=
  if (e - s) + 1 > 30 then
    .error "Daily breakdown window must be <= 30 days when using stat_time_day."
  else .ok ()

/-- The validate-then-fetch skeleton of the daily single-query variants
(src/runProductGmvMaxCampaignDaily.js, lines 13-130): validate the range,
then run the pagination loop against the API for exactly that
`(start_date, end_date)` pair. -/
def runDailyReport {α : Type} (s e : Int) (resp : Int → Int → Nat → Page α)
    (enableTotals : Bool) (fuel : Nat) :
    Except String (Option (List Nat × List α × Option Obj)) :=
  match validateDailyRange_ s e with
  | .error m => .error m
  | .ok _ => .ok (fetchLoop enableTotals (resp s e) fuel 1 none [] [])

/-- One page fetch in the batch variant: the `UrlFetchApp` call together
with the HTTP-status and envelope-code checks either throws (`.error` with
the message) or yields a parsed page. -/
abbrev LiveFetch (α : Type) := Nat → Except String (Page α)

/-- The batch variant's per-query pagination loop (src/unnamed/part_001,
lines 91-162), run inside the `try`: each iteration fetches, merges
`body.total_metrics` into the running accumulator via `sumTotals_` whenever
it is present, appends rows, and stops once `page >= totalPage`.  A throw is
reported as `some msg` next to the state at the moment of the throw (the
rows and totals already accumulated are kept).  `none` means the fuel ran
out. -/
def liveFetchLoop {α : Type} (resp : LiveFetch α) :
    Nat → Nat → List α × Obj → Option ((List α × Obj) × Option String)
  | 0, _, _ => none
  | fuel + 1, page, (rows, agg) =>
      match resp page with
      | .error msg => some ((rows, agg), some msg)
      | .ok b =>
          let agg' := match b.totalMetrics with
            | some t => sumTotals_ agg t
            | none => agg
          let rows' := rows ++ b.rows
          if effTotalPage b ≤ page then some ((rows', agg'), none)
          else liveFetchLoop resp fuel (page + 1) (rows', agg')

/-- A sheet's contents: a list of rows of cell values. -/
abbrev Sheet := List (List JSVal)

/-- `writeRowsToSheet_` (src/runProductGmvMaxCampaignDaily.js, lines
219-233): `clearContents()` discards whatever the sheet held, then the
header row is written at row 1 and one row per record below it, each cell
being `r[h] ?? ''`. -/
def writeRowsToSheet_ (sheet : Sheet) (rows : List Obj) (headerOrder : List String) : Sheet :=
  let _ := sheet
  [headerOrder.map JSVal.str] ++
    rows.map (fun r => headerOrder.map (fun h => nullish (objGet r h)))

/-- The fixed error-log column order of `logErrorRow_`. -/
def errLogKeys : List String := ["ts", "advertiser_id", "store_id", "window", "message"]

/-- `logErrorRow_` (src/unnamed/part_001, lines 297-306): create the header
row when the sheet is empty (`getLastRow() === 0`), then append one row of
`obj[k] || ''` cells. -/
def logErrorRow_ (sheet : Sheet) (obj : Obj) : Sheet :=
  (if sheet.length = 0 then sheet ++ [errLogKeys.map JSVal.str] else sheet) ++
    [errLogKeys.map (fun k => orEmpty (objGet obj k))]

/-- An advertiser/store pair iterated by the batch driver. -/
structure EntityPair where
  advertiser_id : String
  store_id : String
deriving DecidableEq

/-- The mutable state threaded through the batch driver's nested loops. -/
structure DriverState (α : Type) where
  allRows : List α
  totalsAgg : Obj
  errSheet : Sheet
deriving DecidableEq

/-- The error-log record built in the `catch` clause (src/unnamed/part_001,
lines 163-171). -/
def errObj (ts : String) (p : EntityPair) (w : String × String) (msg : String) : Obj :=
  [("ts", .str ts),
   ("advertiser_id", .str p.advertiser_id),
   ("store_id", .str p.store_id),
   ("window", .str (w.1 ++ ".." ++ w.2)),
   ("message", .str msg)]

/-- The batch multi-window driver (src/unnamed/part_001, lines 87-173):
for each window, for each advertiser/store pair, run the pagination loop in
a `try`; on a throw, log one error row and continue with the next
combination.  The response oracle is indexed by window, pair and page; `ts`
stands for the formatted catch-time timestamp. -/
def runBatchDriver {α : Type} (ts : String) (oracle : String × String → EntityPair → LiveFetch α)
    (fuel : Nat) (windows : List (String × String)) (pairs : List EntityPair)
    (st : DriverState α) : DriverState α :=
  windows.foldl (fun st w =>
    pairs.foldl (fun st p =>
      match liveFetchLoop (oracle w p) fuel 1 (st.allRows, st.totalsAgg) with
      | none => st
      | some ((rows, agg), err) =>
          match err with
          | some msg =>
              { allRows := rows, totalsAgg := agg,
                errSheet := logErrorRow_ st.errSheet (errObj ts p w msg) }
          | none => { allRows := rows, totalsAgg := agg, errSheet := st.errSheet }) st) st

/-- The output column order of `runProductGmvMaxCampaignDaily`
(src/runProductGmvMaxCampaignDaily.js, lines 132-152). -/
def productDailyColumns : List String :=
  ["advertiser_id", "store_id", "stat_time_day", "campaign_id",
   "operation_status", "campaign_name", "schedule_type", "schedule_start_time",
   "schedule_end_time", "target_roi_budget", "bid_type", "max_delivery_budget",
   "roas_bid", "cost", "net_cost", "orders", "cost_per_order",
   "gross_revenue", "roi"]

/-- The columns of `runProductGmvMaxCampaignDaily` whose values come from the
response's `dimensions` sub-object. -/
def productDailyDimCols : List String := ["stat_time_day", "campaign_id"]

/-- The columns of `runProductGmvMaxCampaignDaily` whose values come from the
response's `metrics` sub-object. -/
def productDailyMetricCols : List String :=
  ["operation_status", "campaign_name", "schedule_type", "schedule_start_time",
   "schedule_end_time", "target_roi_budget", "bid_type", "max_delivery_budget",
   "roas_bid", "cost", "net_cost", "orders", "cost_per_order",
   "gross_revenue", "roi"]

/-- The row flattener of `runProductGmvMaxCampaignDaily`
(src/runProductGmvMaxCampaignDaily.js, lines 98-124): every declared field is
assigned, dimension fields from `item.dimensions`, metric fields from
`item.metrics`, each through the `|| ''` default. -/
def flattenProductDailyItem (advertiserId storeId : String) (d m : Obj) : Obj :=
  [("advertiser_id", .str advertiserId),
   ("store_id", .str storeId),
   ("stat_time_day", orEmpty (objGet d "stat_time_day")),
   ("campaign_id", orEmpty (objGet d "campaign_id")),
   ("operation_status", orEmpty (objGet m "operation_status")),
   ("campaign_name", orEmpty (objGet m "campaign_name")),
   ("schedule_type", orEmpty (objGet m "schedule_type")),
   ("schedule_start_time", orEmpty (objGet m "schedule_start_time")),
   ("schedule_end_time", orEmpty (objGet m "schedule_end_time")),
   ("target_roi_budget", orEmpty (objGet m "target_roi_budget")),
   ("bid_type", orEmpty (objGet m "bid_type")),
   ("max_delivery_budget", orEmpty (objGet m "max_delivery_budget")),
   ("roas_bid", orEmpty (objGet m "roas_bid")),
   ("cost", orEmpty (objGet m "cost")),
   ("net_cost", orEmpty (objGet m "net_cost")),
   ("orders", orEmpty (objGet m "orders")),
   ("cost_per_order", orEmpty (objGet m "cost_per_order")),
   ("gross_revenue", orEmpty (objGet m "gross_revenue")),
   ("roi", orEmpty (objGet m "roi"))]

/-- The metric-sourced output fields of the batch LIVE variant's flattener,
paired with the response key each one reads (src/unnamed/part_001, lines
131-155; note the two renamed `10_second` fields). -/
def liveDailyMetricFields : List (String × String) :=
  [("operation_status", "operation_status"), ("campaign_name", "campaign_name"),
   ("tt_account_name", "tt_account_name"),
   ("tt_account_profile_image_url", "tt_account_profile_image_url"),
   ("identity_id", "identity_id"), ("schedule_type", "schedule_type"),
   ("schedule_start_time", "schedule_start_time"),
   ("schedule_end_time", "schedule_end_time"), ("bid_type", "bid_type"),
   ("target_roi_budget", "target_roi_budget"),
   ("max_delivery_budget", "max_delivery_budget"), ("roas_bid", "roas_bid"),
   ("cost", "cost"), ("net_cost", "net_cost"), ("orders", "orders"),
   ("cost_per_order", "cost_per_order"), ("gross_revenue", "gross_revenue"),
   ("roi", "roi"), ("live_views", "live_views"),
   ("cost_per_live_view", "cost_per_live_view"),
   ("live_10s_views", "10_second_live_views"),
   ("cost_per_10s_live_view", "cost_per_10_second_live_view"),
   ("live_follows", "live_follows")]

/-- The row flattener of the batch LIVE variant (src/unnamed/part_001, lines
122-157): ids, the two dimension fields, then each metric field through
`|| ''` (the `10_second` metrics via string-keyed lookup, renamed). -/
def flattenLiveDailyItem (advertiserId storeId : String) (d m : Obj) : Obj :=
  [("advertiser_id", .str advertiserId),
   ("store_id", .str storeId),
   ("stat_time_day", orEmpty (objGet d "stat_time_day")),
   ("campaign_id", orEmpty (objGet d "campaign_id"))] ++
  liveDailyMetricFields.map (fun f => (f.1, orEmpty (objGet m f.2)))

/-- The well-formedness the window planner is claimed to guarantee for the
inclusive range `[s, e]`: every window lies inside the range and spans at
most 30 calendar days, consecutive windows are contiguous (the next starts
the day after the previous ends), the windows are pairwise non-overlapping,
and a day is covered by some window exactly when it lies in `[s, e]`. -/
def windowsOk (s e : Int) (L : List (Int × Int)) : Prop :=
  (∀ w ∈ L, s ≤ w.1 ∧ w.1 ≤ w.2 ∧ w.2 ≤ e ∧ w.2 - w.1 ≤ 29) ∧
  List.Chain' (fun a b => b.1 = a.2 + 1) L ∧
  List.Pairwise (fun a b => a.2 < b.1) L ∧
  (∀ d : Int, (∃ w ∈ L, w.1 ≤ d ∧ d ≤ w.2) ↔ s ≤ d ∧ d ≤ e)

/-- Totals object returned on page 1 of the two-page counterexample query. -/
def cexTotalsPage1 : Obj := [("cost", .str "10")]

/-- Totals object returned on page 2 of the two-page counterexample query. -/
def cexTotalsPage2 : Obj := [("cost", .str "5")]

/-- A two-page query in which both pages report `total_page = 2` and each
page carries a totals object. -/
def cexPages : Nat → Page String :=
  fun p => ⟨[], some 2, some (if p = 1 then cexTotalsPage1 else cexTotalsPage2)⟩

/-- The same two-page query seen by the batch variant's fetch (no throws). -/
def cexRespBoth : LiveFetch String := fun p => .ok (cexPages p)

/-- The same query with page 2's totals object absent: what the batch run
would have to be equivalent to if totals after the first page were ignored. -/
def cexRespFirstOnly : LiveFetch String :=
  fun p => .ok ⟨[], some 2, if p = 1 then some cexTotalsPage1 else none⟩

/-- A three-page query with two rows per page (`total_page = 3`). -/
def c3Resp : Nat → Page String :=
  fun p => ⟨["row" ++ toString p ++ "a", "row" ++ toString p ++ "b"], some 3, none⟩

/-- Entity pair whose fetch throws in the batch-driver scenario. -/
def pairA : EntityPair := ⟨"advA", "storeA"⟩

/-- Entity pair whose fetch succeeds in the batch-driver scenario. -/
def pairB : EntityPair := ⟨"advB", "storeB"⟩

/-- Batch-driver oracle: pair `pairA` throws on its first page, every other
pair gets a clean single page with one row. -/
def c6Oracle : String × String → EntityPair → LiveFetch String :=
  fun _ p _ => if p = pairA then .error "boom" else .ok ⟨["rowB"], some 1, none⟩

/-- A trivial single-page daily-report oracle. -/
def c10Resp : Int → Int → Nat → Page Unit := fun _ _ _ => ⟨[], some 1, none⟩

/-- Accumulated totals that exercise the primary ROI path. -/
def roiAggA : Obj := [("cost", .num 100), ("gross_revenue", .num 250)]

/-- Accumulated totals that exercise the `net_cost` fallback ROI path. -/
def roiAggB : Obj := [("cost", .num 0), ("net_cost", .num 50), ("gross_revenue", .num 100)]

/-! ### Helper lemmas about the JS object model -/

theorem find?_key_map_set (o : Obj) (k k' : String) (v : JSVal) (h : k ≠ k') :
    (o.map (fun p => if p.1 == k' then (k', v) else p)).find? (fun p => p.1 == k) =
      o.find? (fun p => p.1 == k) := by
  induction o with
  | nil => rfl
  | cons a o ih =>
      cases hb : (a.1 == k') with
      | true =>
          have hb' : a.1 = k' := by rwa [beq_iff_eq] at hb
          have h2 : (a.1 == k) = false := beq_false_of_ne (hb' ▸ Ne.symm h)
          have h3 : (k' == k) = false := beq_false_of_ne (Ne.symm h)
          simp only [List.map_cons, hb, if_true, List.find?_cons, h3, h2]
          exact ih
      | false =>
          simp only [List.map_cons, hb, Bool.false_eq_true, if_false, List.find?_cons]
          cases hak : (a.1 == k) with
          | true => rfl
          | false => exact ih

theorem find?_key_map_set_self (o : Obj) (k : String) (v : JSVal)
    (hhas : o.any (fun p => p.1 == k) = true) :
    (o.map (fun p => if p.1 == k then (k, v) else p)).find? (fun p => p.1 == k) =
      some (k, v) := by
  induction o with
  | nil => simp at hhas
  | cons a o ih =>
      cases hb : (a.1 == k) with
      | true =>
          simp only [List.map_cons, hb, if_true, List.find?_cons, beq_self_eq_true]
      | false =>
          simp only [List.any_cons, hb, Bool.false_or] at hhas
          simp only [List.map_cons, hb, Bool.false_eq_true, if_false, List.find?_cons]
          exact ih hhas

theorem objGet_objSet_self (o : Obj) (k : String) (v : JSVal) :
    objGet (objSet o k v) k = some v := by
  unfold objSet objHas
  by_cases h : o.any (fun p => p.1 == k) = true
  · rw [if_pos h]
    unfold objGet
    rw [find?_key_map_set_self o k v h]
    rfl
  · have hfind : o.find? (fun p => p.1 == k) = none := by
      rw [List.find?_eq_none]
      intro p hp
      by_contra hc
      exact h (List.any_eq_true.mpr ⟨p, hp, by simpa using hc⟩)
    rw [if_neg h]
    unfold objGet
    rw [List.find?_append, hfind]
    simp

theorem objGet_objSet_ne (o : Obj) (k k' : String) (v : JSVal) (h : k ≠ k') :
    objGet (objSet o k' v) k = objGet o k := by
  unfold objSet objHas
  by_cases hh : o.any (fun p => p.1 == k') = true
  · rw [if_pos hh]
    unfold objGet
    rw [find?_key_map_set o k k' v h]
  · have h3 : (k' == k) = false := by
      simp only [beq_eq_false_iff_ne, ne_eq]
      exact Ne.symm h
    rw [if_neg hh]
    unfold objGet
    rw [List.find?_append]
    simp only [List.find?_cons, h3, List.find?_nil, Option.or_none]

theorem objHas_objSet_ne (o : Obj) (k k' : String) (v : JSVal) (h : k ≠ k') :
    objHas (objSet o k' v) k = objHas o k := by
  unfold objSet objHas
  by_cases hh : o.any (fun p => p.1 == k') = true
  · rw [if_pos hh, List.any_map]
    congr 1
    funext p
    by_cases hp : p.1 = k'
    · have hb : (p.1 == k') = true := by simp [hp]
      have h3 : (k' == k) = false := by
        simp only [beq_eq_false_iff_ne, ne_eq]
        exact Ne.symm h
      simp [Function.comp, hb, h3, hp, Ne.symm h]
    · have hb : (p.1 == k') = false := by simp [hp]
      simp [Function.comp, hb]
  · have h3 : (k' == k) = false := by
      simp only [beq_eq_false_iff_ne, ne_eq]
      exact Ne.symm h
    rw [if_neg hh, List.any_append]
    simp [h3]

/-! ### Lemmas about the totals aggregator -/

theorem objGet_cons (kv : String × JSVal) (rest : Obj) (k : String) :
    objGet (kv :: rest) k = if kv.1 == k then some kv.2 else objGet rest k := by
  unfold objGet
  rw [List.find?_cons]
  cases hb : (kv.1 == k) <;> simp [hb]

theorem sumTotals_cons (agg : Obj) (kv : String × JSVal) (rest : Obj) :
    sumTotals_ agg (kv :: rest) =
      sumTotals_ (match num_ kv.2 with
        | some v => objSet agg kv.1 (.num ((numOpt (objGet agg kv.1)).getD 0 + v))
        | none => if objHas agg kv.1 then agg else objSet agg kv.1 kv.2) rest := rfl

theorem sumTotals_not_mem (add : Obj) (k : String) (h : ∀ p ∈ add, p.1 ≠ k) :
    ∀ agg : Obj,
      objGet (sumTotals_ agg add) k = objGet agg k ∧
      objHas (sumTotals_ agg add) k = objHas agg k := by
  induction add with
  | nil => intro agg; exact ⟨rfl, rfl⟩
  | cons kv rest ih =>
      intro agg
      have hk : k ≠ kv.1 := Ne.symm (h kv (by simp))
      have hrest : ∀ p ∈ rest, p.1 ≠ k := fun p hp => h p (by simp [hp])
      rw [sumTotals_cons]
      have hstep :
          objGet (match num_ kv.2 with
            | some v => objSet agg kv.1 (.num ((numOpt (objGet agg kv.1)).getD 0 + v))
            | none => if objHas agg kv.1 then agg else objSet agg kv.1 kv.2) k
              = objGet agg k ∧
          objHas (match num_ kv.2 with
            | some v => objSet agg kv.1 (.num ((numOpt (objGet agg kv.1)).getD 0 + v))
            | none => if objHas agg kv.1 then agg else objSet agg kv.1 kv.2) k
              = objHas agg k := by
        cases num_ kv.2 with
        | some v => exact ⟨objGet_objSet_ne _ _ _ _ hk, objHas_objSet_ne _ _ _ _ hk⟩
        | none =>
            by_cases hh : objHas agg kv.1
            · simp [hh]
            · simp only [if_neg hh]
              exact ⟨objGet_objSet_ne _ _ _ _ hk, objHas_objSet_ne _ _ _ _ hk⟩
      obtain ⟨h1, h2⟩ := ih hrest _
      exact ⟨h1.trans hstep.1, h2.trans hstep.2⟩

theorem sumTotals_get (add : Obj) (hnd : (add.map Prod.fst).Nodup) :
    ∀ (agg : Obj) (k : String),
      objGet (sumTotals_ agg add) k =
        match objGet add k with
        | none => objGet agg k
        | some v =>
            match num_ v with
            | some n => some (.num ((numOpt (objGet agg k)).getD 0 + n))
            | none => if objHas agg k then objGet agg k else some v := by
  induction add with
  | nil => intro agg k; rfl
  | cons kv rest ih =>
      intro agg k
      rw [List.map_cons, List.nodup_cons] at hnd
      obtain ⟨hnotin, hndrest⟩ := hnd
      rw [sumTotals_cons, objGet_cons]
      by_cases hk : kv.1 = k
      · have hb : (kv.1 == k) = true := beq_iff_eq.mpr hk
        rw [if_pos hb]
        subst hk
        have hrest : ∀ p ∈ rest, p.1 ≠ kv.1 := by
          intro p hp hc
          exact hnotin (hc ▸ List.mem_map_of_mem Prod.fst hp)
        obtain ⟨hget, -⟩ := sumTotals_not_mem rest kv.1 hrest _
        rw [hget]
        cases hnum : num_ kv.2 with
        | some n =>
            simp only [hnum]
            exact objGet_objSet_self _ _ _
        | none =>
            simp only [hnum]
            by_cases hh : objHas agg kv.1
            · simp [hh]
            · have hh' : objHas agg kv.1 = false := by simpa using hh
              simp [hh', objGet_objSet_self agg kv.1 kv.2]
      · have hb : (kv.1 == k) = false := beq_false_of_ne hk
        simp only [hb, Bool.false_eq_true, if_false]
        have hk' : k ≠ kv.1 := Ne.symm hk
        set agg' := (match num_ kv.2 with
          | some v => objSet agg kv.1 (.num ((numOpt (objGet agg kv.1)).getD 0 + v))
          | none => if objHas agg kv.1 then agg else objSet agg kv.1 kv.2) with hagg'
        have hstepget : objGet agg' k = objGet agg k := by
          rw [hagg']
          cases num_ kv.2 with
          | some v => exact objGet_objSet_ne _ _ _ _ hk'
          | none =>
              by_cases hh : objHas agg kv.1
              · simp [hh]
              · have hh' : objHas agg kv.1 = false := by simpa using hh
                simp only [hh', if_false]
                exact objGet_objSet_ne _ _ _ _ hk'
        have hstephas : objHas agg' k = objHas agg k := by
          rw [hagg']
          cases num_ kv.2 with
          | some v => exact objHas_objSet_ne _ _ _ _ hk'
          | none =>
              by_cases hh : objHas agg kv.1
              · simp [hh]
              · have hh' : objHas agg kv.1 = false := by simpa using hh
                simp only [hh', if_false]
                exact objHas_objSet_ne _ _ _ _ hk'
        rw [ih hndrest agg' k, hstepget, hstephas]

/-! ### Lemmas about the window planner -/

theorem buildDailyWindowsAux_ok :
    ∀ (n : Nat) (e cur : Int), (e + 1 - cur).toNat ≤ n → cur ≤ e →
      windowsOk cur e (buildDailyWindowsAux e cur) ∧
      (buildDailyWindowsAux e cur).head?.map Prod.fst = some cur := by
  intro n
  induction n with
  | zero => intro e cur hn hle; exfalso; omega
  | succ n ih =>
      intro e cur hn hle
      rw [buildDailyWindowsAux.eq_def, if_pos hle]
      set b := min e (cur + 29) with hb
      have hcurb : cur ≤ b := by omega
      have hble : b ≤ e := by omega
      have hspan : b - cur ≤ 29 := by omega
      by_cases hend : b = e
      · have htail : buildDailyWindowsAux e (b + 1) = [] := by
          rw [buildDailyWindowsAux.eq_def, if_neg (by omega)]
        rw [htail]
        refine ⟨⟨?_, ?_, ?_, ?_⟩, by simp⟩
        · intro w hw
          rw [List.mem_singleton] at hw
          subst hw
          exact ⟨le_refl _, hcurb, hble, hspan⟩
        · exact List.chain'_singleton _
        · simp
        · intro d
          constructor
          · rintro ⟨w, hw, hd1, hd2⟩
            rw [List.mem_singleton] at hw
            subst hw
            have hd1' : cur ≤ d := hd1
            have hd2' : d ≤ b := hd2
            exact ⟨hd1', by omega⟩
          · intro hd
            refine ⟨(cur, b), List.mem_singleton.mpr rfl, hd.1, ?_⟩
            show d ≤ b
            omega
      · have hb1 : b + 1 ≤ e := by omega
        have hm : (e + 1 - (b + 1)).toNat ≤ n := by omega
        obtain ⟨⟨h1, h2, h3, h4⟩, hhead⟩ := ih e (b + 1) hm hb1
        refine ⟨⟨?_, ?_, ?_, ?_⟩, by simp⟩
        · intro w hw
          rcases List.mem_cons.mp hw with hw | hw
          · subst hw
            exact ⟨le_refl _, hcurb, hble, hspan⟩
          · obtain ⟨ha, hb2, hc, hd⟩ := h1 w hw
            exact ⟨by omega, hb2, hc, hd⟩
        · rw [List.chain'_cons']
          refine ⟨?_, h2⟩
          intro y hy
          rw [Option.mem_def] at hy
          rw [hy] at hhead
          simpa using hhead
        · rw [List.pairwise_cons]
          refine ⟨?_, h3⟩
          intro w hw
          obtain ⟨ha, -, -, -⟩ := h1 w hw
          omega
        · intro d
          constructor
          · rintro ⟨w, hw, hd1, hd2⟩
            rcases List.mem_cons.mp hw with hw | hw
            · subst hw
              have hd1' : cur ≤ d := hd1
              have hd2' : d ≤ b := hd2
              exact ⟨hd1', by omega⟩
            · obtain ⟨hd3, hd4⟩ := (h4 d).mp ⟨w, hw, hd1, hd2⟩
              exact ⟨by omega, hd4⟩
          · rintro ⟨hd1, hd2⟩
            by_cases hdb : d ≤ b
            · refine ⟨(cur, b), List.mem_cons_self _ _, hd1, ?_⟩
              show d ≤ b
              exact hdb
            · obtain ⟨w, hw, hw1, hw2⟩ := (h4 d).mpr ⟨by omega, hd2⟩
              exact ⟨w, List.mem_cons_of_mem _ hw, hw1, hw2⟩

/-! ### Lemmas about the pagination loops -/

theorem fetchLoop_run {α : Type} (et : Bool) (resp : Nat → Page α) (N : Nat)
    (hN : 1 ≤ N) (hT : ∀ p, (resp p).total_page = some N) :
    ∀ (fuel page : Nat) (tm : Option Obj) (acc : List α) (reqs : List Nat),
      page ≤ N → N - page < fuel →
      fetchLoop et resp fuel page tm acc reqs =
        some (reqs ++ List.range' page (N + 1 - page),
              acc ++ (List.range' page (N + 1 - page)).flatMap (fun p => (resp p).rows),
              (List.range' page (N + 1 - page)).foldl
                (fun t p => if et then t <|> (resp p).totalMetrics else t) tm) := by
  intro fuel
  induction fuel with
  | zero => intro page tm acc reqs hpage hfuel; omega
  | succ fuel ih =>
      intro page tm acc reqs hpage hfuel
      have heff : effTotalPage (resp page) = N := by
        unfold effTotalPage
        rw [hT page]
        simp
        omega
      rw [fetchLoop]
      simp only [heff]
      by_cases hstop : N ≤ page
      · have hpn : page = N := le_antisymm hpage hstop
        rw [if_pos hstop]
        have hr : N + 1 - page = 1 := by omega
        rw [hr, List.range'_one]
        simp
      · rw [if_neg hstop]
        have hlt : page < N := lt_of_le_of_ne hpage (fun hc => hstop (le_of_eq hc.symm))
        have hrec := ih (page + 1)
          (if et then tm <|> (resp page).totalMetrics else tm)
          (acc ++ (resp page).rows) (reqs ++ [page]) (by omega) (by omega)
        rw [hrec]
        have hr : N + 1 - page = (N - page) + 1 := by omega
        have hr2 : N + 1 - (page + 1) = N - page := by omega
        rw [hr, hr2, List.range'_succ]
        simp [List.append_assoc]

theorem liveFetchLoop_run {α : Type} (bresp : Nat → Page α) (N : Nat)
    (hN : 1 ≤ N) (hT : ∀ p, (bresp p).total_page = some N) :
    ∀ (fuel page : Nat) (rows : List α) (agg : Obj),
      page ≤ N → N - page < fuel →
      liveFetchLoop (fun p => .ok (bresp p)) fuel page (rows, agg) =
        some ((rows ++ (List.range' page (N + 1 - page)).flatMap (fun p => (bresp p).rows),
               (List.range' page (N + 1 - page)).foldl
                 (fun a p => match (bresp p).totalMetrics with
                   | some t => sumTotals_ a t
                   | none => a) agg),
              none) := by
  intro fuel
  induction fuel with
  | zero => intro page rows agg hpage hfuel; omega
  | succ fuel ih =>
      intro page rows agg hpage hfuel
      have heff : effTotalPage (bresp page) = N := by
        unfold effTotalPage
        rw [hT page]
        simp
        omega
      rw [liveFetchLoop]
      simp only [heff]
      by_cases hstop : N ≤ page
      · rw [if_pos hstop]
        have hr : N + 1 - page = 1 := by omega
        rw [hr, List.range'_one]
        simp
      · rw [if_neg hstop]
        have hrec := ih (page + 1)
          (rows ++ (bresp page).rows)
          (match (bresp page).totalMetrics with
            | some t => sumTotals_ agg t
            | none => agg) (by omega) (by omega)
        rw [hrec]
        have hr : N + 1 - page = (N - page) + 1 := by omega
        have hr2 : N + 1 - (page + 1) = N - page := by omega
        rw [hr, hr2, List.range'_succ]
        simp [List.append_assoc]

theorem foldl_orelse_eq_findSome (f : Nat → Option Obj) :
    ∀ (l : List Nat) (tm : Option Obj),
      l.foldl (fun t p => t <|> f p) tm = (tm <|> l.findSome? f) := by
  intro l
  induction l with
  | nil => intro tm; cases tm <;> rfl
  | cons a l ih =>
      intro tm
      rw [List.foldl_cons, ih (tm <|> f a), List.findSome?_cons]
      cases tm with
      | none =>
          cases hfa : f a with
          | none => simp
          | some b => simp
      | some t =>
          cases hfa : f a with
          | none => simp
          | some b => simp

/-! ### Claim theorems -/

/-- C1 (corrected, counterexample): in the batch variant's per-query pagination
loop, totals objects on pages after the first are NOT ignored: a two-page query
whose pages carry totals `{cost:"10"}` and `{cost:"5"}` yields a different
accumulator than the same query with page 2's totals absent (both are merged,
`10 + 5 = 15`), refuting the claim at this input. -/
theorem parseFloat_ten : parseFloatJs "10" = some 10 := by
  simp [parseFloatJs, digitsVal, List.dropWhile, List.takeWhile]

theorem parseFloat_five : parseFloatJs "5" = some 5 := by
  simp [parseFloatJs, digitsVal, List.dropWhile, List.takeWhile]

theorem parseFloat_two : parseFloatJs "2" = some 2 := by
  simp [parseFloatJs, digitsVal, List.dropWhile, List.takeWhile]

theorem parseFloat_three : parseFloatJs "3" = some 3 := by
  simp [parseFloatJs, digitsVal, List.dropWhile, List.takeWhile]

theorem parseFloat_usd : parseFloatJs "USD" = none := by
  simp [parseFloatJs, digitsVal, List.dropWhile, List.takeWhile]

theorem parseFloat_eur : parseFloatJs "EUR" = none := by
  simp [parseFloatJs, digitsVal, List.dropWhile, List.takeWhile]

theorem cexRespBoth_run :
    liveFetchLoop cexRespBoth 2 1 (([] : List String), ([] : Obj)) =
      some ((([] : List String), [("cost", JSVal.num 15)]), none) := by
  simp [liveFetchLoop, cexRespBoth, cexPages, cexTotalsPage1, cexTotalsPage2,
    effTotalPage, sumTotals_, objSet, objGet, objHas, numOpt, num_,
    parseFloat_ten, parseFloat_five]
  norm_num

theorem cexRespFirstOnly_run :
    liveFetchLoop cexRespFirstOnly 2 1 (([] : List String), ([] : Obj)) =
      some ((([] : List String), [("cost", JSVal.num 10)]), none) := by
  simp [liveFetchLoop, cexRespFirstOnly, cexTotalsPage1,
    effTotalPage, sumTotals_, objSet, objGet, objHas, numOpt, num_, parseFloat_ten]

theorem c1_batch_counterexample :
    liveFetchLoop cexRespBoth 2 1 (([] : List String), ([] : Obj)) ≠
      liveFetchLoop cexRespFirstOnly 2 1 (([] : List String), ([] : Obj)) := by
  rw [cexRespBoth_run, cexRespFirstOnly_run]
  intro h
  simp at h

/-- C1 (amended): in the single-query variants the totals object is captured
only from the first page of the query that returns one (first totals wins,
later pages' totals objects are ignored); in the batch multi-window variant's
per-query pagination loop, however, every page's totals object is merged into
the accumulator via `sumTotals_`, so totals on subsequent pages of the same
query are summed in, not ignored. -/
theorem c1_totals_capture :
    (∀ (α : Type) (resp : Nat → Page α) (N fuel : Nat),
      (∀ p, (resp p).total_page = some N) → 1 ≤ N → N ≤ fuel →
      (fetchLoop true resp fuel 1 none [] []).map (fun r => r.2.2) =
        some ((List.range' 1 N).findSome? (fun p => (resp p).totalMetrics))) ∧
    (∀ (α : Type) (bresp : Nat → Page α) (N fuel : Nat) (rows : List α) (agg : Obj),
      (∀ p, (bresp p).total_page = some N) → 1 ≤ N → N ≤ fuel →
      liveFetchLoop (fun p => .ok (bresp p)) fuel 1 (rows, agg) =
        some ((rows ++ (List.range' 1 N).flatMap (fun p => (bresp p).rows),
               (List.range' 1 N).foldl
                 (fun a p => match (bresp p).totalMetrics with
                   | some t => sumTotals_ a t
                   | none => a) agg),
              none)) := by
  constructor
  · intro α resp N fuel hT hN hfuel
    rw [fetchLoop_run true resp N hN hT fuel 1 none [] [] hN (by omega)]
    have h1 : N + 1 - 1 = N := by omega
    rw [h1]
    simp [foldl_orelse_eq_findSome]
  · intro α bresp N fuel rows agg hT hN hfuel
    rw [liveFetchLoop_run bresp N hN hT fuel 1 rows agg hN (by omega)]
    have h1 : N + 1 - 1 = N := by omega
    rw [h1]

/-- Witness for C1's amended theorem at the concrete two-page query: the
single-query loop keeps page 1's totals, the batch loop folds both pages'
totals through `sumTotals_`. -/
theorem c1_totals_capture_witness :
    ((fetchLoop true cexPages 2 1 none [] []).map (fun r => r.2.2) =
      some ((List.range' 1 2).findSome? (fun p => (cexPages p).totalMetrics))) ∧
    (liveFetchLoop cexRespBoth 2 1 (([] : List String), ([] : Obj)) =
      some ((([] : List String) ++ (List.range' 1 2).flatMap (fun p => (cexPages p).rows),
             (List.range' 1 2).foldl
               (fun a p => match (cexPages p).totalMetrics with
                 | some t => sumTotals_ a t
                 | none => a) ([] : Obj)),
            none)) :=
  ⟨c1_totals_capture.1 String cexPages 2 2 (fun _ => rfl) (by decide) (by decide),
   c1_totals_capture.2 String cexPages 2 2 [] [] (fun _ => rfl) (by decide) (by decide)⟩

/-- C2 (confirmed): for any start ≤ end the planner's windows lie in the range,
span at most 30 calendar days each, are contiguous (each starts the day after
the previous ends) and pairwise non-overlapping, and cover exactly the
inclusive range; when start = end it returns exactly one single-day window. -/
theorem c2_windows (s e : Int) (h : s ≤ e) :
    windowsOk s e (buildDailyWindows_ s e) ∧
    (s = e → buildDailyWindows_ s e = [(s, s)]) := by
  constructor
  · exact (buildDailyWindowsAux_ok (e + 1 - s).toNat e s (le_refl _) h).1
  · intro heq
    subst heq
    unfold buildDailyWindows_
    rw [buildDailyWindowsAux.eq_def, if_pos (le_refl s)]
    have hmin : min s (s + 29) = s := by omega
    rw [hmin, buildDailyWindowsAux.eq_def, if_neg (by omega)]

/-- Witness for C2 at the 35-day range 0..34 (two windows) and at the
single-day range 7..7. -/
theorem c2_windows_witness :
    (windowsOk 0 34 (buildDailyWindows_ 0 34) ∧
      ((0 : Int) = 34 → buildDailyWindows_ 0 34 = [(0, 0)])) ∧
    ((7 : Int) = 7 → buildDailyWindows_ 7 7 = [(7, 7)]) :=
  ⟨c2_windows 0 34 (by decide), (c2_windows 7 7 (by decide)).2⟩

/-- C3 (confirmed): when every response of a query reports the same
`total_page = N ≥ 1`, the pagination loop terminates exactly at page `N`,
issues exactly the page numbers 1..N in order, and returns the concatenation
of all pages' rows in page order. -/
theorem c3_pagination {α : Type} (et : Bool) (resp : Nat → Page α) (N fuel : Nat)
    (hT : ∀ p, (resp p).total_page = some N) (hN : 1 ≤ N) (hfuel : N ≤ fuel) :
    ∃ tm, fetchLoop et resp fuel 1 none [] [] =
      some (List.range' 1 N, (List.range' 1 N).flatMap (fun p => (resp p).rows), tm) := by
  refine ⟨(List.range' 1 N).foldl
    (fun t p => if et then t <|> (resp p).totalMetrics else t) none, ?_⟩
  rw [fetchLoop_run et resp N hN hT fuel 1 none [] [] hN (by omega)]
  have h1 : N + 1 - 1 = N := by omega
  rw [h1]
  simp

/-- Witness for C3: three pages of two rows each (`total_page = 3`) produce
exactly the page requests 1, 2, 3 and the six rows in page order. -/
theorem c3_pagination_witness :
    (∃ tm, fetchLoop true c3Resp 3 1 none [] [] =
      some (List.range' 1 3, (List.range' 1 3).flatMap (fun p => (c3Resp p).rows), tm)) ∧
    (List.range' 1 3).flatMap (fun p => (c3Resp p).rows) =
      ["row1a", "row1b", "row2a", "row2b", "row3a", "row3b"] :=
  ⟨c3_pagination true c3Resp 3 3 (fun _ => rfl) (by decide) (by decide), by decide⟩

/-- C4 (confirmed): merging a totals object into the accumulator parses each
value of the new object as a number (numeric-looking strings included); a
parseable value is added to the accumulator's numeric value for that key
(a missing prior value counting as zero), and a non-parseable value is carried
through unchanged only when the key is not yet present (first writer wins for
non-numeric fields). -/
theorem c4_sumTotals (agg add : Obj) (k : String) (hnd : (add.map Prod.fst).Nodup) :
    (∀ v n, objGet add k = some v → num_ v = some n →
      objGet (sumTotals_ agg add) k =
        some (.num ((numOpt (objGet agg k)).getD 0 + n))) ∧
    (∀ v, objGet add k = some v → num_ v = none →
      objGet (sumTotals_ agg add) k =
        if objHas agg k then objGet agg k else some v) := by
  constructor
  · intro v n hv hn
    rw [sumTotals_get add hnd agg k]
    simp only [hv, hn]
  · intro v hv hn
    rw [sumTotals_get add hnd agg k]
    simp only [hv, hn]

theorem mergeEx1 :
    sumTotals_ [] [("cost", .str "10"), ("orders", .str "2")] =
      [("cost", JSVal.num 10), ("orders", JSVal.num 2)] := by
  simp [sumTotals_, objSet, objGet, objHas, numOpt, num_, parseFloat_ten, parseFloat_two]

theorem mergeCur1 :
    sumTotals_ [] [("currency", .str "USD")] = [("currency", JSVal.str "USD")] := by
  simp [sumTotals_, objSet, objGet, objHas, numOpt, num_, parseFloat_usd]

/-- Witness for C4 at the spec's examples: {cost:"10", orders:"2"} then
{cost:"5", orders:"3"} sums to cost 15 and orders 5, while the non-numeric
{currency:"USD"} then {currency:"EUR"} keeps the first writer's value. -/
theorem c4_sumTotals_witness :
    objGet (sumTotals_ (sumTotals_ [] [("cost", .str "10"), ("orders", .str "2")])
      [("cost", .str "5"), ("orders", .str "3")]) "cost" = some (.num 15) ∧
    objGet (sumTotals_ (sumTotals_ [] [("cost", .str "10"), ("orders", .str "2")])
      [("cost", .str "5"), ("orders", .str "3")]) "orders" = some (.num 5) ∧
    objGet (sumTotals_ (sumTotals_ [] [("currency", .str "USD")])
      [("currency", .str "EUR")]) "currency" = some (.str "USD") := by
  refine ⟨?_, ?_, ?_⟩
  · have h := (c4_sumTotals (sumTotals_ [] [("cost", .str "10"), ("orders", .str "2")])
      [("cost", .str "5"), ("orders", .str "3")] "cost" (by simp)).1 (.str "5") 5
      (by simp [objGet]) (by simp [num_, parseFloat_five])
    rw [h, mergeEx1]
    simp [objGet, numOpt, num_]
    norm_num
  · have h := (c4_sumTotals (sumTotals_ [] [("cost", .str "10"), ("orders", .str "2")])
      [("cost", .str "5"), ("orders", .str "3")] "orders" (by simp)).1 (.str "3") 3
      (by simp [objGet]) (by simp [num_, parseFloat_three])
    rw [h, mergeEx1]
    simp [objGet, numOpt, num_]
    norm_num
  · have h := (c4_sumTotals (sumTotals_ [] [("currency", .str "USD")])
      [("currency", .str "EUR")] "currency" (by simp)).2 (.str "EUR")
      (by simp [objGet]) (by simp [num_, parseFloat_eur])
    rw [h, mergeCur1]
    simp [objGet, objHas]

/-- C5 (confirmed): after all merges, ROI is recomputed from the summed base
fields: `roi = gross_revenue / cost` when the summed cost is a finite positive
number, and `roi = gross_revenue / net_cost` when cost is zero or non-finite
while net_cost is finite and positive (gross_revenue finite in both cases). -/
theorem c5_roi (agg : Obj) :
    (∀ c g, numOpt (objGet agg "cost") = some c → 0 < c →
      numOpt (objGet agg "gross_revenue") = some g →
      objGet (recomputeRoi agg) "roi" = some (.num (g / c))) ∧
    (∀ nc g,
      (numOpt (objGet agg "cost") = none ∨ numOpt (objGet agg "cost") = some 0) →
      numOpt (objGet agg "net_cost") = some nc → 0 < nc →
      numOpt (objGet agg "gross_revenue") = some g →
      objGet (recomputeRoi agg) "roi" = some (.num (g / nc))) := by
  constructor
  · intro c g hc hcpos hg
    unfold recomputeRoi
    simp only [hc, hg, if_pos hcpos]
    rw [objGet_objSet_ne agg "net_cost" "roi" (.num (g / c)) (by decide)]
    cases hnc : numOpt (objGet agg "net_cost") with
    | none => exact objGet_objSet_self _ _ _
    | some nc =>
        have hcond : ¬ (((some c : Option ℚ) = none ∨ (some c : Option ℚ) = some 0) ∧ 0 < nc) := by
          rintro ⟨hor, -⟩
          rcases hor with h | h
          · exact Option.noConfusion h
          · rw [Option.some_inj] at h
            rw [h] at hcpos
            exact lt_irrefl 0 hcpos
        try dsimp only
        rw [if_neg hcond]
        exact objGet_objSet_self _ _ _
  · intro nc g hor hnc hncpos hg
    unfold recomputeRoi
    rcases hor with hc | hc
    · simp only [hc, hg]
      try dsimp only
      rw [hnc]
      try dsimp only
      rw [if_pos (by simp [hncpos])]
      exact objGet_objSet_self _ _ _
    · simp only [hc, hg]
      try dsimp only
      rw [if_neg (lt_irrefl (0 : ℚ)), hnc]
      try dsimp only
      rw [if_pos (by simp [hncpos])]
      exact objGet_objSet_self _ _ _

/-- Witness for C5 at the spec's examples: cost 100 with gross revenue 250
gives roi 250/100, and cost 0 with net cost 50 and gross revenue 100 gives
roi 100/50 through the fallback path. -/
theorem c5_roi_witness :
    objGet (recomputeRoi roiAggA) "roi" = some (.num ((250 : ℚ) / 100)) ∧
    objGet (recomputeRoi roiAggB) "roi" = some (.num ((100 : ℚ) / 50)) :=
  ⟨(c5_roi roiAggA).1 100 250 (by simp [roiAggA, objGet, numOpt, num_]) (by norm_num)
      (by simp [roiAggA, objGet, numOpt, num_]),
   (c5_roi roiAggB).2 50 100 (Or.inr (by simp [roiAggB, objGet, numOpt, num_]))
      (by simp [roiAggB, objGet, numOpt, num_]) (by norm_num)
      (by simp [roiAggB, objGet, numOpt, num_])⟩

theorem orEmpty_ne_null (x : Option JSVal) : orEmpty x ≠ JSVal.nullV := by
  unfold orEmpty
  cases x with
  | none => simp
  | some v =>
      dsimp only
      split
      · cases v <;> simp_all [truthy]
      · simp

/-- C7 (confirmed): every declared output column of the flattened row is
assigned some value that is never null (or undefined), and a dimension or
metric field absent from the response is written as the empty string. -/
theorem c7_missing_defaults_empty (adv store : String) (d m : Obj) :
    (∀ c ∈ productDailyColumns,
      ∃ v, objGet (flattenProductDailyItem adv store d m) c = some v ∧ v ≠ JSVal.nullV) ∧
    (∀ c ∈ productDailyDimCols, objGet d c = none →
      objGet (flattenProductDailyItem adv store d m) c = some (.str "")) ∧
    (∀ c ∈ productDailyMetricCols, objGet m c = none →
      objGet (flattenProductDailyItem adv store d m) c = some (.str "")) := by
  refine ⟨?_, ?_, ?_⟩
  · intro c hc
    fin_cases hc <;>
      first
        | exact ⟨.str adv, rfl, by simp⟩
        | exact ⟨.str store, rfl, by simp⟩
        | exact ⟨_, rfl, orEmpty_ne_null _⟩
  · intro c hc h
    fin_cases hc <;> { show some (orEmpty (objGet d _)) = some (JSVal.str ""); rw [h]; rfl }
  · intro c hc h
    fin_cases hc <;> { show some (orEmpty (objGet m _)) = some (JSVal.str ""); rw [h]; rfl }

/-- Witness for C7: with an item whose dimensions and metrics objects are both
empty, the "cost" column of the flattened row is the empty string. -/
theorem c7_missing_defaults_empty_witness :
    objGet (flattenProductDailyItem "a" "s" [] []) "cost" = some (.str "") :=
  (c7_missing_defaults_empty "a" "s" [] []).2.2 "cost" (by simp [productDailyMetricCols]) rfl

/-- C9 (confirmed, implicit): a response field that is present but falsy
(the number 0, the empty string, false, or null) is flattened to the empty
string exactly as an absent field would be (`orEmpty` cannot tell them
apart), in the product daily variant and in the batch LIVE variant alike;
a genuine zero metric is therefore indistinguishable from a missing field. -/
theorem c9_falsy_blanked (adv store : String) (d m : Obj) (v : JSVal)
    (hv : v = .num 0 ∨ v = .str "" ∨ v = .boolV false ∨ v = .nullV) :
    orEmpty (some v) = orEmpty none ∧
    (∀ c ∈ productDailyDimCols, objGet d c = some v →
      objGet (flattenProductDailyItem adv store d m) c = some (.str "")) ∧
    (∀ c ∈ productDailyMetricCols, objGet m c = some v →
      objGet (flattenProductDailyItem adv store d m) c = some (.str "")) ∧
    (∀ f ∈ liveDailyMetricFields, objGet m f.2 = some v →
      objGet (flattenLiveDailyItem adv store d m) f.1 = some (.str "")) := by
  have htr : truthy v = false := by
    rcases hv with h | h | h | h <;> subst h <;> simp [truthy]
  have hoe : orEmpty (some v) = .str "" := by
    unfold orEmpty
    simp [htr]
  refine ⟨by rw [hoe]; rfl, ?_, ?_, ?_⟩
  · intro c hc h
    fin_cases hc <;> { show some (orEmpty (objGet d _)) = some (JSVal.str ""); rw [h, hoe] }
  · intro c hc h
    fin_cases hc <;> { show some (orEmpty (objGet m _)) = some (JSVal.str ""); rw [h, hoe] }
  · intro f hf h
    fin_cases hf <;> { show some (orEmpty (objGet m _)) = some (JSVal.str ""); rw [h, hoe] }

/-- Witness for C9: a present zero cost is flattened to the empty string in
both variants, identically to an absent cost. -/
theorem c9_falsy_blanked_witness :
    objGet (flattenProductDailyItem "a" "s" [] [("cost", JSVal.num 0)]) "cost" =
      some (.str "") ∧
    objGet (flattenLiveDailyItem "a" "s" [] [("cost", JSVal.num 0)]) "cost" =
      some (.str "") :=
  ⟨(c9_falsy_blanked "a" "s" [] [("cost", JSVal.num 0)] (.num 0) (Or.inl rfl)).2.2.1
      "cost" (by simp [productDailyMetricCols]) rfl,
   (c9_falsy_blanked "a" "s" [] [("cost", JSVal.num 0)] (.num 0) (Or.inl rfl)).2.2.2
      ("cost", "cost") (by simp [liveDailyMetricFields]) rfl⟩

/-- C8 (confirmed): writing the same rows twice to the same destination is
idempotent — each write replaces all prior content with the header row
followed by one row per record — while the error-log sink instead appends one
row per call, creating its header row on first use. -/
theorem c8_sink_idempotence :
    (∀ (sheet : Sheet) (rows : List Obj) (cols : List String),
      writeRowsToSheet_ (writeRowsToSheet_ sheet rows cols) rows cols =
        writeRowsToSheet_ sheet rows cols) ∧
    (∀ obj : Obj, logErrorRow_ [] obj =
      [errLogKeys.map JSVal.str, errLogKeys.map (fun k => orEmpty (objGet obj k))]) ∧
    (∀ (sheet : Sheet) (obj : Obj), sheet ≠ [] →
      logErrorRow_ sheet obj = sheet ++ [errLogKeys.map (fun k => orEmpty (objGet obj k))]) ∧
    (∀ (sheet : Sheet) (obj obj2 : Obj),
      logErrorRow_ (logErrorRow_ sheet obj) obj2 =
        logErrorRow_ sheet obj ++ [errLogKeys.map (fun k => orEmpty (objGet obj2 k))]) := by
  have happend : ∀ (sheet : Sheet) (obj : Obj), sheet ≠ [] →
      logErrorRow_ sheet obj =
        sheet ++ [errLogKeys.map (fun k => orEmpty (objGet obj k))] := by
    intro sheet obj h
    unfold logErrorRow_
    rw [if_neg (by simpa using h)]
  refine ⟨fun _ _ _ => rfl, fun _ => rfl, happend, ?_⟩
  intro sheet obj obj2
  apply happend
  intro hc
  have := congrArg List.length hc
  simp [logErrorRow_] at this

/-- Witness for C8's append clause on a nonempty error-log sheet. -/
theorem c8_sink_idempotence_witness :
    logErrorRow_ [[JSVal.str "x"]] [] =
      [[JSVal.str "x"]] ++ [errLogKeys.map (fun k => orEmpty (objGet [] k))] :=
  c8_sink_idempotence.2.2.1 [[JSVal.str "x"]] [] (by simp)

/-- C6 (confirmed): in the batch driver, an error from one (window, entity)
combination is caught and recorded as one error-log row carrying the entity
ids, the window bounds and the error message, and the driver continues with
the next combination: when pair `A` throws on its first page and pair `B`
succeeds with rows `R`, the run completes with `R` as its rows and exactly
one error-log entry for `A` (below the header row created on first use). -/
theorem c6_error_isolation {α : Type} (ts : String) (w : String × String)
    (A B : EntityPair) (msg : String) (R : List α) (f : Nat)
    (oracle : String × String → EntityPair → LiveFetch α)
    (hA : oracle w A 1 = .error msg)
    (hB : oracle w B 1 = .ok ⟨R, some 1, none⟩) :
    runBatchDriver ts oracle (f + 1) [w] [A, B] ⟨[], [], []⟩ =
      ⟨R, [],
       [errLogKeys.map JSVal.str,
        [orEmpty (some (.str ts)), orEmpty (some (.str A.advertiser_id)),
         orEmpty (some (.str A.store_id)), orEmpty (some (.str (w.1 ++ ".." ++ w.2))),
         orEmpty (some (.str msg))]]⟩ := by
  have hloopA : liveFetchLoop (oracle w A) (f + 1) 1 (([] : List α), ([] : Obj)) =
      some ((([] : List α), ([] : Obj)), some msg) := by
    rw [liveFetchLoop, hA]
  have hloopB : liveFetchLoop (oracle w B) (f + 1) 1 (([] : List α), ([] : Obj)) =
      some ((R, ([] : Obj)), none) := by
    rw [liveFetchLoop, hB]
    simp [effTotalPage]
  unfold runBatchDriver
  simp only [List.foldl_cons, List.foldl_nil]
  rw [hloopA]
  simp only
  rw [hloopB]
  simp only [logErrorRow_, errObj, errLogKeys, objGet]
  simp [List.find?]

/-- Witness for C6 with a concrete oracle: pair `pairA` throws "boom", pair
`pairB` returns one row; the run keeps B's row and logs one error row for A. -/
theorem c6_error_isolation_witness :
    runBatchDriver "ts0" c6Oracle 1 [("2025-06-01", "2025-06-30")] [pairA, pairB]
        ⟨[], [], []⟩ =
      ⟨["rowB"], [],
       [errLogKeys.map JSVal.str,
        [orEmpty (some (.str "ts0")), orEmpty (some (.str pairA.advertiser_id)),
         orEmpty (some (.str pairA.store_id)),
         orEmpty (some (.str ("2025-06-01" ++ ".." ++ "2025-06-30"))),
         orEmpty (some (.str "boom"))]]⟩ :=
  c6_error_isolation "ts0" ("2025-06-01", "2025-06-30") pairA pairB "boom" ["rowB"] 0
    c6Oracle (by simp [c6Oracle]) (by simp [c6Oracle, pairA, pairB])

/-- C10 (confirmed, implicit): the daily-range validation throws an error
exactly when the inclusive day count `(end - start) + 1` exceeds 30; for any
configuration whose start date is after its end date, that count is zero or
negative, no error is raised, and the daily run proceeds to run the
pagination loop against exactly that inverted (start, end) range. -/
theorem c10_inverted_range_accepted :
    (∀ (α : Type) (s e : Int) (resp : Int → Int → Nat → Page α) (et : Bool) (fuel : Nat),
      (∃ msg, runDailyReport s e resp et fuel = .error msg) ↔ (e - s) + 1 > 30) ∧
    (∀ (α : Type) (s e : Int) (resp : Int → Int → Nat → Page α) (et : Bool) (fuel : Nat),
      e < s →
      validateDailyRange_ s e = .ok () ∧
      runDailyReport s e resp et fuel =
        .ok (fetchLoop et (resp s e) fuel 1 none [] [])) := by
  constructor
  · intro α s e resp et fuel
    unfold runDailyReport validateDailyRange_
    by_cases h : (e - s) + 1 > 30
    · rw [if_pos h]
      simp [h]
    · rw [if_neg h]
      simp [h]
  · intro α s e resp et fuel h
    have hv : validateDailyRange_ s e = .ok () := by
      unfold validateDailyRange_
      rw [if_neg (by omega)]
    refine ⟨hv, ?_⟩
    unfold runDailyReport
    rw [hv]

/-- Witness for C10: a 41-day range is rejected, while the inverted range
5..3 passes validation and the run proceeds to the pagination loop. -/
theorem c10_inverted_range_accepted_witness :
    (∃ msg, runDailyReport 0 40 c10Resp true 3 = .error msg) ∧
    (validateDailyRange_ 5 3 = .ok () ∧
     runDailyReport 5 3 c10Resp true 3 =
       .ok (fetchLoop true (c10Resp 5 3) 3 1 none [] [])) :=
  ⟨(c10_inverted_range_accepted.1 Unit 0 40 c10Resp true 3).mpr (by decide),
   c10_inverted_range_accepted.2 Unit 5 3 c10Resp true 3 (by decide)⟩
